import Mathlib

/-!
Verification of the NBA data-collection pipeline (roster / schedule / box-score
scrapers persisting into an SQLite store).

The Python sources are shallowly embedded:
* text is modelled as `List Char` (`Str`); Python `str.lower`, slicing, `split()`
  and `str.replace` become executable functions on `Str`;
* Python `int(...)` / `float(...)` on stripped cell text become `pyInt` / `pyFloat`
  returning `Except Unit _` (an uncaught `ValueError` is `.error ()`); floats are
  modelled as exact rationals;
* a BeautifulSoup document is a tree of element / comment / text nodes
  (`HNode` / `HNodes`); comment nodes carry their re-parsed fragment;
* SQLite tables are lists of typed rows; `INSERT OR IGNORE` under a UNIQUE
  constraint and the explicit check-then-insert pattern are both `upsert`;
  SQL `=` against a possibly-NULL bound parameter is `sqlEqS` (NULL never
  compares equal, as in SQLite).
-/

deriving instance DecidableEq for Except

/-- Text, modelled as a list of characters (Python code points). -/
abbrev Str := List Char

/-- Embed a Lean string literal as `Str`. -/
def str (s : String) : Str := s.data

/-- Python `str.lower()` (ASCII case mapping suffices for the scraped data). -/
def lowerS (l : Str) : Str := l.map Char.toLower

/-- `a` is an initial segment of `b` (used for Python `str.startswith`). -/
def leadEq : Str → Str → Bool
  | [], _ => true
  | _ :: _, [] => false
  | a :: as, b :: bs => a == b && leadEq as bs

/-- Python `str.endswith`. -/
def tailEq (a b : Str) : Bool := leadEq a.reverse b.reverse

/-- Python `needle in hay` substring test. -/
def containsSub (needle : Str) : Str → Bool
  | [] => leadEq needle []
  | c :: cs => leadEq needle (c :: cs) || containsSub needle cs

/-- Python `str.split()` with no argument: split on whitespace runs,
dropping empty pieces. -/
def splitWs (l : Str) : List Str :=
  (l.splitOnP Char.isWhitespace).filter (· ≠ [])

/-- One step of Python `str.replace(pat, "")`, fuelled by the length of the
subject string (the fuel is always sufficient, so this equals the unfuelled
left-to-right non-overlapping scan). -/
def removeAllF (pat : Str) : Nat → Str → Str
  | _, [] => []
  | 0, s => s
  | f + 1, c :: cs =>
    if pat ≠ [] && leadEq pat (c :: cs) then removeAllF pat f (List.drop (pat.length - 1) cs)
    else c :: removeAllF pat f cs

/-- Python `s.replace(pat, "")`: delete every (non-overlapping, leftmost)
occurrence of `pat` in `s`. -/
def removeAll (pat s : Str) : Str := removeAllF pat s.length s

/-- Python `str.capitalize()`: first character upper-cased, rest lower-cased. -/
def pyCapitalize : Str → Str
  | [] => []
  | c :: cs => c.toUpper :: cs.map Char.toLower

/-- Decimal digits of `n` followed by `.html` etc. use `Nat.repr`; this is the
Python format `f"{n:02d}"` for the suffix counter (exact for `n ≤ 99`). -/
def pad2 (n : Nat) : Str := (if n < 10 then str "0" else []) ++ (Nat.repr n).data

/-- Value of a decimal digit string, `none` if any character is not a digit. -/
def digitsValAux : Str → Nat → Option Nat
  | [], acc => some acc
  | c :: cs, acc =>
    if c.isDigit then digitsValAux cs (acc * 10 + (c.toNat - 48)) else none

/-- Value of a non-empty all-digit string, else `none`. -/
def digitsVal (l : Str) : Option Nat :=
  if l = [] then none else digitsValAux l 0

/-- Python `int(s)` on already-stripped text: optional sign then decimal digits;
anything else raises `ValueError` (`.error ()`). -/
def pyInt (s : Str) : Except Unit Int :=
  match s with
  | '-' :: rest =>
    match digitsVal rest with
    | some n => .ok (-(n : Int))
    | none => .error ()
  | '+' :: rest =>
    match digitsVal rest with
    | some n => .ok (n : Int)
    | none => .error ()
  | _ =>
    match digitsVal s with
    | some n => .ok (n : Int)
    | none => .error ()

/-- Magnitude of a Python float literal: `digits`, `digits.`, `.digits` or
`digits.digits`. -/
def pyFloatMag (l : Str) : Option ℚ :=
  match l.splitOnP (· == '.') with
  | [ip] => (digitsVal ip).map (fun n => (n : ℚ))
  | [ip, fp] =>
    if ip = [] && fp = [] then none
    else
      match (if ip = [] then some 0 else digitsVal ip),
            (if fp = [] then some 0 else digitsVal fp) with
      | some i, some f => some (mkRat (i * 10 ^ fp.length + f) (10 ^ fp.length))
      | _, _ => none
  | _ => none

/-- Python `float(s)` on already-stripped text, as an exact rational;
unparsable text raises (`.error ()`). -/
def pyFloat (s : Str) : Except Unit ℚ :=
  match s with
  | '-' :: rest =>
    match pyFloatMag rest with
    | some q => .ok (-q)
    | none => .error ()
  | '+' :: rest =>
    match pyFloatMag rest with
    | some q => .ok q
    | none => .error ()
  | _ =>
    match pyFloatMag s with
    | some q => .ok q
    | none => .error ()

example : pyInt (str "109") = .ok 109 := by decide
example : pyInt (str "-7") = .ok (-7) := by decide
example : pyInt (str "abc") = .error () := by decide
example : pyFloat (str ".512") = .ok (mkRat 64 125) := by decide
example : pyFloat (str "34:12") = .error () := by decide
example : removeAll (str " Basic and Advanced Stats") (str "New York Knicks Basic and Advanced Stats") = str "New York Knicks" := by decide
example : pad2 7 = str "07" := by decide
example : splitWs (str "Yao Ming") = [str "Yao", str "Ming"] := by decide

/-! ## Box-score tables: cells, rows, and the row extractors

`boxscorescraper.py` and `advancedboxscorescraper.py`. A `<tr>` of a
box-score `<tbody>` is a `BRow`: its `class` attribute tokens and its
`th`/`td` cells, each cell carrying its `data-stat` attribute and its
stripped text. -/

/-- One `th`/`td` cell: `data-stat` attribute and `get_text(strip=True)`. -/
structure BCell where
  stat : Str
  text : Str
deriving DecidableEq

/-- One `<tr>` of a box-score table body. -/
structure BRow where
  classes : List Str
  cells : List BCell
deriving DecidableEq

/-- `row.find(attrs={"data-stat": k})` followed by `get_text(strip=True)`:
the text of the first cell whose `data-stat` is `k`. -/
def findStat (r : BRow) (k : Str) : Option Str :=
  (r.cells.find? (fun c => c.stat == k)).map (·.text)

/-- The idiom `int(row.find(...).get_text(strip=True) or 0) if row.find(...) else 0`:
absent cell gives `0`, empty text gives `int(0) = 0`, other text goes through
`int` and may raise. -/
def statInt (cell : Option Str) : Except Unit Int :=
  match cell with
  | none => .ok 0
  | some t => if t = [] then .ok 0 else pyInt t

/-- The float version of the same idiom (`float(... or 0) if ... else 0`). -/
def statFloat (cell : Option Str) : Except Unit ℚ :=
  match cell with
  | none => .ok 0
  | some t => if t = [] then .ok 0 else pyFloat t

/-- One stored row of `box_scores_per_game` (schema of `ensure_boxscores_table`,
minus the surrogate `id`). -/
structure BoxRow where
  box_score_link : Str
  team : Str
  player_name : Str
  starter : Int
  mp : Option Str
  fg : Int
  fga : Int
  fg_pct : ℚ
  threep : Int
  threepa : Int
  threep_pct : ℚ
  ft : Int
  fta : Int
  ft_pct : ℚ
  orb : Int
  drb : Int
  trb : Int
  ast : Int
  stl : Int
  blk : Int
  tov : Int
  pf : Int
  pts : Int
  plus_minus : Int
deriving DecidableEq

/-- The `row_dict` built for one retained row of a basic box-score table
(`parse_box_score_table`, body of the loop). -/
def parseBoxRow (row : BRow) (link team name : Str) : Except Unit BoxRow := do
  let fg ← statInt (findStat row (str "fg"))
  let fga ← statInt (findStat row (str "fga"))
  let fg_pct ← statFloat (findStat row (str "fg_pct"))
  let threep ← statInt (findStat row (str "fg3"))
  let threepa ← statInt (findStat row (str "fg3a"))
  let threep_pct ← statFloat (findStat row (str "fg3_pct"))
  let ft ← statInt (findStat row (str "ft"))
  let fta ← statInt (findStat row (str "fta"))
  let ft_pct ← statFloat (findStat row (str "ft_pct"))
  let orb ← statInt (findStat row (str "orb"))
  let drb ← statInt (findStat row (str "drb"))
  let trb ← statInt (findStat row (str "trb"))
  let ast ← statInt (findStat row (str "ast"))
  let stl ← statInt (findStat row (str "stl"))
  let blk ← statInt (findStat row (str "blk"))
  let tov ← statInt (findStat row (str "tov"))
  let pf ← statInt (findStat row (str "pf"))
  let pts ← statInt (findStat row (str "pts"))
  let plus_minus ← statInt (findStat row (str "plus_minus"))
  return { box_score_link := link, team := team, player_name := name,
           starter := if row.classes.contains (str "starter") then 1 else 0,
           mp := findStat row (str "mp"),
           fg := fg, fga := fga, fg_pct := fg_pct, threep := threep,
           threepa := threepa, threep_pct := threep_pct, ft := ft, fta := fta,
           ft_pct := ft_pct, orb := orb, drb := drb, trb := trb, ast := ast,
           stl := stl, blk := blk, tov := tov, pf := pf, pts := pts,
           plus_minus := plus_minus }

/-- The row loop of `parse_box_score_table`: a row is skipped when it carries
the `thead` class, has no cells, has no `data-stat="player"` cell, or that
cell's text is empty or contains `"Totals"`. -/
def parseBoxRows (link team : Str) : List BRow → Except Unit (List BoxRow)
  | [] => .ok []
  | row :: rest =>
    if row.classes.contains (str "thead") then parseBoxRows link team rest
    else if row.cells = [] then parseBoxRows link team rest
    else
      match findStat row (str "player") with
      | none => parseBoxRows link team rest
      | some name =>
        if name = [] || containsSub (str "Totals") name then parseBoxRows link team rest
        else do
          let d ← parseBoxRow row link team name
          let ds ← parseBoxRows link team rest
          return d :: ds

/-- `parse_box_score_table`: `soup.find("tbody")` may be absent (empty result);
otherwise the body rows are processed in document order. -/
def parse_box_score_table (tbody : Option (List BRow)) (link team : Str) :
    Except Unit (List BoxRow) :=
  match tbody with
  | none => .ok []
  | some rows => parseBoxRows link team rows

/-- One stored row of `advanced_box_scores_per_game`
(schema of `ensure_advanced_boxscores_table`, minus the surrogate `id`). -/
structure AdvRow where
  box_score_link : Str
  team : Str
  player_name : Str
  starter : Int
  mp : Option Str
  ts_pct : ℚ
  efg_pct : ℚ
  fg3a_per_fga_pct : ℚ
  fta_per_fga_pct : ℚ
  orb_pct : ℚ
  drb_pct : ℚ
  trb_pct : ℚ
  ast_pct : ℚ
  stl_pct : ℚ
  blk_pct : ℚ
  tov_pct : ℚ
  usg_pct : ℚ
  ortg : Int
  drtg : Int
deriving DecidableEq

/-- The `row_dict` built for one retained row of an advanced box-score table
(`parse_advanced_box_score_table`, body of the loop). -/
def parseAdvRow (row : BRow) (link team name : Str) : Except Unit AdvRow := do
  let ts_pct ← statFloat (findStat row (str "ts_pct"))
  let efg_pct ← statFloat (findStat row (str "efg_pct"))
  let fg3a_per_fga_pct ← statFloat (findStat row (str "fg3a_per_fga_pct"))
  let fta_per_fga_pct ← statFloat (findStat row (str "fta_per_fga_pct"))
  let orb_pct ← statFloat (findStat row (str "orb_pct"))
  let drb_pct ← statFloat (findStat row (str "drb_pct"))
  let trb_pct ← statFloat (findStat row (str "trb_pct"))
  let ast_pct ← statFloat (findStat row (str "ast_pct"))
  let stl_pct ← statFloat (findStat row (str "stl_pct"))
  let blk_pct ← statFloat (findStat row (str "blk_pct"))
  let tov_pct ← statFloat (findStat row (str "tov_pct"))
  let usg_pct ← statFloat (findStat row (str "usg_pct"))
  let ortg ← statInt (findStat row (str "off_rtg"))
  let drtg ← statInt (findStat row (str "def_rtg"))
  return { box_score_link := link, team := team, player_name := name,
           starter := if row.classes.contains (str "starter") then 1 else 0,
           mp := findStat row (str "mp"),
           ts_pct := ts_pct, efg_pct := efg_pct,
           fg3a_per_fga_pct := fg3a_per_fga_pct, fta_per_fga_pct := fta_per_fga_pct,
           orb_pct := orb_pct, drb_pct := drb_pct, trb_pct := trb_pct,
           ast_pct := ast_pct, stl_pct := stl_pct, blk_pct := blk_pct,
           tov_pct := tov_pct, usg_pct := usg_pct, ortg := ortg, drtg := drtg }

/-- The row loop of `parse_advanced_box_score_table`; the skip conditions
mirror the basic parser (no separate empty-cells check appears in the
advanced source, the `player`-cell check subsumes it). -/
def parseAdvRows (link team : Str) : List BRow → Except Unit (List AdvRow)
  | [] => .ok []
  | row :: rest =>
    if row.classes.contains (str "thead") then parseAdvRows link team rest
    else
      match findStat row (str "player") with
      | none => parseAdvRows link team rest
      | some name =>
        if name = [] || containsSub (str "Totals") name then parseAdvRows link team rest
        else do
          let d ← parseAdvRow row link team name
          let ds ← parseAdvRows link team rest
          return d :: ds

/-- `parse_advanced_box_score_table`. -/
def parse_advanced_box_score_table (tbody : Option (List BRow)) (link team : Str) :
    Except Unit (List AdvRow) :=
  match tbody with
  | none => .ok []
  | some rows => parseAdvRows link team rows

/-! ## Parsed documents and table location

A BeautifulSoup document tree. A comment node carries the fragment obtained by
re-parsing its text (`BeautifulSoup(comment, "html.parser")`); `find` never
descends into a comment (its content is a string in the live tree), while the
explicit comment fallback of the roster / schedule scrapers does. -/

mutual
inductive HNode where
  | elem (tag : Str) (idAttr : Option Str) (children : HNodes) : HNode
  | comment (fragment : HNodes) : HNode
  | textNode (s : Str) : HNode
deriving DecidableEq
inductive HNodes where
  | nil : HNodes
  | cons (n : HNode) (ns : HNodes) : HNodes
deriving DecidableEq
end

/-- Append two sibling sequences. -/
def happend : HNodes → HNodes → HNodes
  | .nil, b => b
  | .cons n ns, b => .cons n (happend ns b)

mutual
/-- `node.find("table", id=tid)`: the node itself if it is a matching table,
else the first match among its descendants, in document order. -/
def findTableN (tid : Str) : HNode → Option HNode
  | .elem tag i cs =>
    if tag == str "table" && i == some tid then some (.elem tag i cs)
    else findTableL tid cs
  | .comment _ => none
  | .textNode _ => none
/-- `soup.find("table", id=tid)` over a sibling sequence. -/
def findTableL (tid : Str) : HNodes → Option HNode
  | .nil => none
  | .cons n ns =>
    match findTableN tid n with
    | some t => some t
    | none => findTableL tid ns
end

mutual
/-- Comment fragments of one node, in document order
(`soup.find_all(string=lambda text: isinstance(text, Comment))`,
each re-parsed). -/
def commentsN : HNode → List HNodes
  | .elem _ _ cs => commentsL cs
  | .comment f => [f]
  | .textNode _ => []
/-- Comment fragments of a sibling sequence, in document order. -/
def commentsL : HNodes → List HNodes
  | .nil => []
  | .cons n ns => commentsN n ++ commentsL ns
end

/-- The comment-fallback loop of the roster / schedule scrapers: re-parse each
comment in turn and stop at the first that contains the table. -/
def searchComments (tid : Str) : List HNodes → Option HNode
  | [] => none
  | f :: fs =>
    match findTableL tid f with
    | some t => some t
    | none => searchComments tid fs

/-- Table location as done for `id="roster"` (`scrape_all_teams_roster`) and
`id="schedule"` (`scrape_month_schedule_to_db`): the live tree first, then
every comment fragment. -/
def locateTable (doc : HNodes) (tid : Str) : Option HNode :=
  match findTableL tid doc with
  | some t => some t
  | none => searchComments tid (commentsL doc)

mutual
/-- `soup.find_all("table")` over one node: live tables only, document order,
descending into matches as well. -/
def allTablesN : HNode → List HNode
  | .elem tag i cs =>
    (if tag == str "table" then [HNode.elem tag i cs] else []) ++ allTablesL cs
  | .comment _ => []
  | .textNode _ => []
/-- `soup.find_all("table")` over a sibling sequence. -/
def allTablesL : HNodes → List HNode
  | .nil => []
  | .cons n ns => allTablesN n ++ allTablesL ns
end

/-- `tbl.get("id", "")`. -/
def tableIdOf : HNode → Str
  | .elem _ (some i) _ => i
  | _ => []

/-- Table selection of `scrape_single_box_score` (lines 159-163): enumerate the
live tables and keep those whose id starts with `box-` and ends with
`-game-basic`. No comment fragment is ever searched here. -/
def boxBasicTables (doc : HNodes) : List HNode :=
  (allTablesL doc).filter
    (fun t => leadEq (str "box-") (tableIdOf t) && tailEq (str "-game-basic") (tableIdOf t))

/-- Table selection of `scrape_single_box_score_advanced` (ids ending in
`-game-advanced`); likewise live-tree only. -/
def boxAdvancedTables (doc : HNodes) : List HNode :=
  (allTablesL doc).filter
    (fun t => leadEq (str "box-") (tableIdOf t) && tailEq (str "-game-advanced") (tableIdOf t))

/-! ## The row stores and first-write-wins upsert

A persisted table is a list of typed rows in insertion order. Both duplicate
strategies of the sources — `INSERT OR IGNORE` under a composite UNIQUE
constraint, and an explicit `SELECT`-then-`INSERT` — keep the first row with a
given key and drop later candidates, without error. -/

/-- First-write-wins upsert: `keyEq cand existing` decides whether an existing
row blocks the candidate. Covers both `INSERT OR IGNORE` and check-then-insert. -/
def upsert {α : Type} (keyEq : α → α → Bool) (db : List α) (r : α) : List α :=
  if db.any (fun x => keyEq r x) then db else db ++ [r]

/-- Insert a batch of candidate rows in order. -/
def runUpsert {α : Type} (keyEq : α → α → Bool) (db : List α) (rows : List α) : List α :=
  rows.foldl (upsert keyEq) db

/-- SQLite `=` between a bound parameter and a stored value when either side
may be NULL: NULL never compares equal (three-valued logic collapses to
"no match" in a WHERE clause). -/
def sqlEqS (a b : Option Str) : Bool :=
  match a, b with
  | some x, some y => x == y
  | _, _ => false

/-- Key of `box_scores_per_game`: `UNIQUE(box_score_link, team, player_name)`. -/
def boxKeyEq (a b : BoxRow) : Bool :=
  a.box_score_link == b.box_score_link && a.team == b.team && a.player_name == b.player_name

/-- Key of `advanced_box_scores_per_game`: same composite UNIQUE constraint. -/
def advKeyEq (a b : AdvRow) : Bool :=
  a.box_score_link == b.box_score_link && a.team == b.team && a.player_name == b.player_name

/-- `store_box_score_rows`: `INSERT OR IGNORE` of each parsed line. -/
def store_box_score_rows (db : List BoxRow) (rows : List BoxRow) : List BoxRow :=
  runUpsert boxKeyEq db rows

/-- `store_advanced_box_score_rows`. -/
def store_advanced_box_score_rows (db : List AdvRow) (rows : List AdvRow) : List AdvRow :=
  runUpsert advKeyEq db rows

/-- One stored row of `players` (identity columns bound by the roster INSERT;
the stat-snapshot columns play no role in de-duplication and are omitted).
Fields read from the page dictionary with `.get` may be absent (`none`),
which the INSERT stores as SQL NULL. -/
structure PlayerRow where
  name : Option Str
  team : Str
  position : Option Str
  height : Option Str
  weight : ℚ
  birth_date : Option Str
  birth_country : Option Str
  experience : Option Str
  college : Option Str
deriving DecidableEq

/-- Duplicate check of `scrape_bball_ref.scrape_all_teams_roster`: the
nine-field WHERE clause, with SQLite NULL semantics on each text field. -/
def key9Eq (cand ex : PlayerRow) : Bool :=
  sqlEqS cand.name ex.name && cand.team == ex.team && sqlEqS cand.position ex.position &&
  sqlEqS cand.height ex.height && cand.weight == ex.weight &&
  sqlEqS cand.birth_date ex.birth_date && sqlEqS cand.birth_country ex.birth_country &&
  sqlEqS cand.experience ex.experience && sqlEqS cand.college ex.college

/-- Duplicate check of `data-base-creator.scrape_all_teams_roster`: only
(name, height, college, experience). -/
def key4Eq (cand ex : PlayerRow) : Bool :=
  sqlEqS cand.name ex.name && sqlEqS cand.height ex.height &&
  sqlEqS cand.college ex.college && sqlEqS cand.experience ex.experience

/-- Check-then-insert of one roster candidate, `scrape_bball_ref` variant. -/
def roster_insert_full (db : List PlayerRow) (c : PlayerRow) : List PlayerRow :=
  upsert key9Eq db c

/-- Check-then-insert of one roster candidate, `data-base-creator` variant. -/
def roster_insert_dbc (db : List PlayerRow) (c : PlayerRow) : List PlayerRow :=
  upsert key4Eq db c

/-- Python `dict(zip(headers, row_data))`: on duplicate keys the last value
wins, so lookups read the reversed association list first-match. -/
def dget (headers vals : List Str) (k : Str) : Option Str :=
  ((List.zip headers vals).reverse.find? (fun p => p.1 == k)).map (·.2)

/-- `float(player_data.get("Wt", 0) or 0)`: absent key gives `float(0)`,
empty text gives `float(0)`, other text goes through `float`. -/
def pyWeight (v : Option Str) : Except Unit ℚ :=
  match v with
  | none => .ok 0
  | some t => if t = [] then .ok 0 else pyFloat t

/-- The candidate `players` row built from one roster `<tr>`
(`dict(zip(headers, row_data))` followed by the nine `player_data.get` reads;
identical in both roster pipeline variants). -/
def rosterCandidate (headers vals : List Str) (team : Str) : Except Unit PlayerRow := do
  let w ← pyWeight (dget headers vals (str "Wt"))
  return { name := dget headers vals (str "Player"), team := team,
           position := dget headers vals (str "Pos"),
           height := dget headers vals (str "Ht"), weight := w,
           birth_date := dget headers vals (str "Birth Date"),
           birth_country := dget headers vals (str "Birth"),
           experience := dget headers vals (str "Exp"),
           college := dget headers vals (str "College") }

/-- One roster body row processed by the `scrape_bball_ref` variant: rows with
no cells are skipped, otherwise the candidate is built and check-then-inserted. -/
def ingest_roster_row_full (db : List PlayerRow) (headers vals : List Str) (team : Str) :
    Except Unit (List PlayerRow) :=
  if vals = [] then .ok db
  else do
    let c ← rosterCandidate headers vals team
    return roster_insert_full db c

/-- Same, `data-base-creator` variant (4-field duplicate check). -/
def ingest_roster_row_dbc (db : List PlayerRow) (headers vals : List Str) (team : Str) :
    Except Unit (List PlayerRow) :=
  if vals = [] then .ok db
  else do
    let c ← rosterCandidate headers vals team
    return roster_insert_dbc db c

/-! ## Schedule ingestion (`scrape_bball_ref-game-logs.py`) -/

/-- One stored row of `gamelogs` (minus the surrogate `id`).
`box_score_link` is NULL when the row has no box-score anchor. -/
structure GameLog where
  season_year : Int
  month : Str
  game_date : Str
  start_et : Str
  visitor_team : Str
  visitor_pts : Int
  home_team : Str
  home_pts : Int
  box_score_link : Option Str
  overtime : Str
  attendance : Str
  notes : Str
deriving DecidableEq

/-- Duplicate check of `scrape_month_schedule_to_db`:
`(game_date, visitor_team, home_team)`. All three are `get_text` strings,
never NULL. -/
def gamelogKeyEq (a b : GameLog) : Bool :=
  a.game_date == b.game_date && a.visitor_team == b.visitor_team && a.home_team == b.home_team

/-- One `th`/`td` cell of a schedule row: stripped text, plus the `href` of a
contained `<a>` if one exists (`""` when the anchor has no `href` attribute). -/
structure SCell where
  text : Str
  href : Option Str
deriving DecidableEq

/-- A default cell; `List.getD` below never actually falls back to it because
accesses are guarded by the length check. -/
def scellDefault : SCell := { text := [], href := none }

/-- The per-row body of the loop in `scrape_month_schedule_to_db`
(lines 101-182): skip rows with fewer than 9 cells, read the columns by
position, prefix the box-score `href` with the site origin, skip the row when
`(game_date, visitor_team, home_team)` already exists, else convert the two
point totals with `int` and append the new row. -/
def processScheduleRow (year : Int) (month : Str) (db : List GameLog)
    (cells : List SCell) : Except Unit (List GameLog) :=
  if cells.length < 9 then .ok db
  else
    let game_date := (cells.getD 0 scellDefault).text
    let start_et := (cells.getD 1 scellDefault).text
    let visitor_team := (cells.getD 2 scellDefault).text
    let visitor_pts := if (cells.getD 3 scellDefault).text = [] then str "0"
                       else (cells.getD 3 scellDefault).text
    let home_team := (cells.getD 4 scellDefault).text
    let home_pts := if (cells.getD 5 scellDefault).text = [] then str "0"
                    else (cells.getD 5 scellDefault).text
    let box_score_link :=
      match (cells.getD 6 scellDefault).href with
      | some h => some (str "https://www.basketball-reference.com" ++ h)
      | none => none
    let overtime := (cells.getD 7 scellDefault).text
    let attendance := if 8 < cells.length then (cells.getD 8 scellDefault).text else []
    let notes := if 9 < cells.length then (cells.getD 9 scellDefault).text else []
    if db.any (fun g => g.game_date == game_date && g.visitor_team == visitor_team &&
                        g.home_team == home_team) then .ok db
    else do
      let vp ← pyInt visitor_pts
      let hp ← pyInt home_pts
      return db ++ [{ season_year := year, month := pyCapitalize month,
                      game_date := game_date, start_et := start_et,
                      visitor_team := visitor_team, visitor_pts := vp,
                      home_team := home_team, home_pts := hp,
                      box_score_link := box_score_link, overtime := overtime,
                      attendance := attendance, notes := notes }]

/-- The whole row loop of `scrape_month_schedule_to_db` over the filtered
body rows; an uncaught `int` failure aborts the month. -/
def processScheduleRows (year : Int) (month : Str) :
    List GameLog → List (List SCell) → Except Unit (List GameLog)
  | db, [] => .ok db
  | db, r :: rs =>
    match processScheduleRow year month db r with
    | .error e => .error e
    | .ok db' => processScheduleRows year month db' rs

/-! ## The box-score driver (`scrape_box_scores_for_all_games`)

A fetched page, as the driver sees it after table location: either the
transport call raised (caught inside `scrape_single_box_score`, which then
returns no rows) or a list of located tables, each with its id, optional
caption text and optional `<tbody>` rows. -/

/-- One located `<table>` of a box-score page. -/
structure BTable where
  idAttr : Str
  caption : Option Str
  tbody : Option (List BRow)
deriving DecidableEq

/-- Outcome of `requests.get` for one work item. -/
inductive FetchResult where
  | transportError : FetchResult
  | page (tables : List BTable) : FetchResult
deriving DecidableEq

/-- Team label of a located table: the caption text with
`" Basic and Advanced Stats"` deleted, falling back to the raw table id. -/
def teamOfTable (t : BTable) : Str :=
  match t.caption with
  | some c => removeAll (str " Basic and Advanced Stats") c
  | none => t.idAttr

/-- The table loop of `scrape_single_box_score`: parse every table whose id
matches `box-*-game-basic`, extending the result list; a parse exception
propagates. -/
def scrapeBoxTables (link : Str) : List BTable → Except Unit (List BoxRow)
  | [] => .ok []
  | t :: ts =>
    if leadEq (str "box-") t.idAttr && tailEq (str "-game-basic") t.idAttr then do
      let rows ← parse_box_score_table t.tbody link (teamOfTable t)
      let rest ← scrapeBoxTables link ts
      return rows ++ rest
    else scrapeBoxTables link ts

/-- `scrape_single_box_score`: empty link gives no rows; a transport failure is
caught, logged and gives no rows; otherwise the matching tables are parsed and
any coercion error propagates out (nothing catches it). -/
def scrape_single_box_score (fr : FetchResult) (link : Str) : Except Unit (List BoxRow) :=
  if link = [] then .ok []
  else
    match fr with
    | .transportError => .ok []
    | .page tables => scrapeBoxTables link tables

/-- The work-list loop of `scrape_box_scores_for_all_games`: each item is a
box-score link paired with what fetching it returns. Rows of a successful item
are stored (`INSERT OR IGNORE`); an exception from `scrape_single_box_score`
is not caught anywhere in the driver, so it aborts the remaining items. -/
def scrape_box_scores_driver :
    List (Str × FetchResult) → List BoxRow → Except Unit (List BoxRow)
  | [], db => .ok db
  | (link, fr) :: rest, db =>
    if link = [] then scrape_box_scores_driver rest db
    else
      match scrape_single_box_score fr link with
      | .error e => .error e
      | .ok rows =>
        scrape_box_scores_driver rest (if rows = [] then db else store_box_score_rows db rows)

/-! ## Player profile URL allocation (`generate_player_urls` /
`construct_url`, identical in `scrape_bball_ref.py` and
`data-base-creator.py`) -/

/-- Bucket path segment: `last_name[0].lower()`. -/
def slugFolder (last : Str) : Str := lowerS (last.take 1)

/-- Stem: `(last_name[:5] if len(last_name) >= 5 else
last_name + first_name[:5-len(last_name)]).lower()`. -/
def slugStem (first last : Str) : Str :=
  lowerS (if 5 ≤ last.length then last.take 5 else last ++ first.take (5 - last.length))

/-- First-name piece: `first_name[:2].lower()`. -/
def slugFp (first : Str) : Str := lowerS (first.take 2)

/-- The candidate URL for a given disambiguation counter:
`f"https://www.basketball-reference.com/players/{folder}/{last_part}{first_part}{suffix:02d}.html"`. -/
def candidateUrl (first last : Str) (suffix : Nat) : Str :=
  str "https://www.basketball-reference.com/players/" ++ slugFolder last ++ str "/" ++
    slugStem first last ++ slugFp first ++ pad2 suffix ++ str ".html"

/-- The `while True` loop of `construct_url`: try the candidate for the current
suffix, return it when unassigned, otherwise increment and give up past 99.
The fuel argument only bounds the recursion; called with fuel 99 from suffix 1
it never runs out before the `suffix > 99` exit fires. -/
def urlSearchAux (existing : List Str) (first last : Str) : Nat → Nat → Option Str
  | suffix, fuel =>
    if existing.contains (candidateUrl first last suffix) = false then
      some (candidateUrl first last suffix)
    else
      match fuel with
      | 0 => none
      | f + 1 => if 99 < suffix + 1 then none else urlSearchAux existing first last (suffix + 1) f

/-- `construct_url(player_name, existing_urls)`: split the name on whitespace,
fail on fewer than two parts, then search suffixes 01..99. -/
def construct_url (player_name : Str) (existing_urls : List Str) : Option Str :=
  match splitWs player_name with
  | [] => none
  | [_] => none
  | p0 :: p1 :: rest => urlSearchAux existing_urls p0 ((p1 :: rest).getLastD []) 1 99

/-- One row of `players` as seen by `generate_player_urls`: surrogate id,
name, and the nullable url column. -/
structure PRow where
  id : Nat
  name : Str
  url : Option Str
deriving DecidableEq

/-- `SELECT url FROM players WHERE url IS NOT NULL`. -/
def existingOf (db : List PRow) : List Str := db.filterMap (·.url)

/-- `SELECT id, name FROM players WHERE url IS NULL` (snapshot taken before
the update loop runs). -/
def pendingOf (db : List PRow) : List (Nat × Str) :=
  db.filterMap (fun r => match r.url with | none => some (r.id, r.name) | some _ => none)

/-- The update loop of `generate_player_urls`: for each player still lacking a
URL, construct a candidate against the running set; on success record the
UPDATE and add the URL to the set, on failure move on. -/
def assignUrls (existing : List Str) : List (Nat × Str) → List (Nat × Str)
  | [] => []
  | (pid, nm) :: rest =>
    match construct_url nm existing with
    | some u => (pid, u) :: assignUrls (existing ++ [u]) rest
    | none => assignUrls existing rest

/-- Apply the recorded `UPDATE players SET url = ? WHERE id = ?` statements. -/
def applyAssignments (db : List PRow) (upd : List (Nat × Str)) : List PRow :=
  db.map (fun r =>
    match upd.lookup r.id with
    | some u => { r with url := some u }
    | none => r)

/-- `generate_player_urls` over a table snapshot. -/
def generate_player_urls (db : List PRow) : List PRow :=
  applyAssignments db (assignUrls (existingOf db) (pendingOf db))

example : construct_url (str "Yao Ming") [] =
    some (str "https://www.basketball-reference.com/players/m/mingyya01.html") := by decide
example : construct_url (str "Giannis") [] = none := by decide
example : construct_url (str "John Smith") [str "https://www.basketball-reference.com/players/s/smithjo01.html"] =
    some (str "https://www.basketball-reference.com/players/s/smithjo02.html") := by decide

/-! ## Helper lemmas -/

theorem exceptBind_ok_iff {α β : Type} {x : Except Unit α} {f : α → Except Unit β} {b : β} :
    (x >>= f) = .ok b ↔ ∃ a, x = .ok a ∧ f a = .ok b := by
  cases x with
  | error e => simp [Bind.bind, Except.bind]
  | ok a => simp [Bind.bind, Except.bind]

theorem exceptPure_ok_iff {β : Type} {a b : β} :
    (pure a : Except Unit β) = .ok b ↔ a = b := by
  simp [Pure.pure, Except.pure]

theorem upsert_skip {α : Type} (keyEq : α → α → Bool) (db : List α) (r : α)
    (h : db.any (fun x => keyEq r x) = true) : upsert keyEq db r = db := by
  simp [upsert, h]

theorem upsert_subset {α : Type} (keyEq : α → α → Bool) (db : List α) (r : α) :
    db ⊆ upsert keyEq db r := by
  unfold upsert
  split
  · exact fun _ h => h
  · exact List.subset_append_left db [r]

theorem runUpsert_subset {α : Type} (keyEq : α → α → Bool) (rows : List α) (db : List α) :
    db ⊆ runUpsert keyEq db rows := by
  induction rows generalizing db with
  | nil => exact fun _ h => h
  | cons s rest ih =>
    exact fun x hx => ih (upsert keyEq db s) (upsert_subset keyEq db s hx)

theorem any_of_subset {α : Type} {db db' : List α} {p : α → Bool}
    (hsub : db ⊆ db') (h : db.any p = true) : db'.any p = true := by
  rw [List.any_eq_true] at h ⊢
  obtain ⟨x, hx, hpx⟩ := h
  exact ⟨x, hsub hx, hpx⟩

theorem upsert_key_present {α : Type} (keyEq : α → α → Bool) (db : List α) (r : α)
    (hrefl : keyEq r r = true) :
    (upsert keyEq db r).any (fun x => keyEq r x) = true := by
  unfold upsert
  split
  · assumption
  · rw [List.any_eq_true]
    exact ⟨r, List.mem_append_right db (List.mem_singleton.mpr rfl), hrefl⟩

theorem runUpsert_key_present {α : Type} (keyEq : α → α → Bool) (rows : List α)
    (db : List α) (r : α) (hrefl : keyEq r r = true) :
    r ∈ rows → (runUpsert keyEq db rows).any (fun x => keyEq r x) = true := by
  induction rows generalizing db with
  | nil => intro h; cases h
  | cons s rest ih =>
    intro hr
    rcases List.mem_cons.mp hr with hr | hr
    · subst hr
      exact any_of_subset (runUpsert_subset keyEq rest (upsert keyEq db r))
        (upsert_key_present keyEq db r hrefl)
    · exact ih (upsert keyEq db s) hr

theorem runUpsert_all_skip {α : Type} (keyEq : α → α → Bool) (rows : List α)
    (db : List α) (h : ∀ r ∈ rows, db.any (fun x => keyEq r x) = true) :
    runUpsert keyEq db rows = db := by
  induction rows with
  | nil => rfl
  | cons s rest ih =>
    have hs : upsert keyEq db s = db := upsert_skip keyEq db s (h s (List.mem_cons_self s rest))
    show runUpsert keyEq (upsert keyEq db s) rest = db
    rw [hs]
    exact ih (fun r hr => h r (List.mem_cons_of_mem s hr))

theorem runUpsert_idem {α : Type} (keyEq : α → α → Bool) (rows : List α) (db : List α)
    (hrefl : ∀ r ∈ rows, keyEq r r = true) :
    runUpsert keyEq (runUpsert keyEq db rows) rows = runUpsert keyEq db rows :=
  runUpsert_all_skip keyEq rows (runUpsert keyEq db rows)
    (fun r hr => runUpsert_key_present keyEq rows db r (hrefl r hr) hr)

theorem boxKeyEq_refl (r : BoxRow) : boxKeyEq r r = true := by
  simp [boxKeyEq]

theorem advKeyEq_refl (r : AdvRow) : advKeyEq r r = true := by
  simp [advKeyEq]

theorem processScheduleRow_subset (y : Int) (m : Str) (db : List GameLog)
    (cells : List SCell) (db' : List GameLog)
    (h : processScheduleRow y m db cells = .ok db') : db ⊆ db' := by
  simp only [processScheduleRow] at h
  split at h
  · cases Except.ok.inj h
    exact fun _ hx => hx
  · split at h
    · cases Except.ok.inj h
      exact fun _ hx => hx
    · obtain ⟨vp, hvp, h⟩ := exceptBind_ok_iff.mp h
      obtain ⟨hp, hhp, h⟩ := exceptBind_ok_iff.mp h
      rw [exceptPure_ok_iff] at h
      rw [← h]
      exact List.subset_append_left _ _

theorem processScheduleRow_key (y : Int) (m : Str) (db : List GameLog)
    (cells : List SCell) (db' : List GameLog)
    (h : processScheduleRow y m db cells = .ok db') (hlen : ¬ cells.length < 9) :
    db'.any (fun g => g.game_date == (cells.getD 0 scellDefault).text &&
      g.visitor_team == (cells.getD 2 scellDefault).text &&
      g.home_team == (cells.getD 4 scellDefault).text) = true := by
  simp only [processScheduleRow] at h
  rw [if_neg hlen] at h
  split at h
  · cases Except.ok.inj h
    assumption
  · obtain ⟨vp, hvp, h⟩ := exceptBind_ok_iff.mp h
    obtain ⟨hp, hhp, h⟩ := exceptBind_ok_iff.mp h
    rw [exceptPure_ok_iff] at h
    rw [← h, List.any_append]
    apply Bool.or_eq_true_iff.mpr
    right
    simp

theorem processScheduleRow_skip (y : Int) (m : Str) (db : List GameLog)
    (cells : List SCell)
    (hpresent : ¬ cells.length < 9 →
      db.any (fun g => g.game_date == (cells.getD 0 scellDefault).text &&
        g.visitor_team == (cells.getD 2 scellDefault).text &&
        g.home_team == (cells.getD 4 scellDefault).text) = true) :
    processScheduleRow y m db cells = .ok db := by
  simp only [processScheduleRow]
  by_cases hlen : cells.length < 9
  · rw [if_pos hlen]
  · rw [if_neg hlen, if_pos (hpresent hlen)]

theorem processScheduleRows_subset (y : Int) (m : Str) (rows : List (List SCell))
    (db db' : List GameLog)
    (h : processScheduleRows y m db rows = .ok db') : db ⊆ db' := by
  induction rows generalizing db with
  | nil => cases Except.ok.inj h; exact fun _ hx => hx
  | cons r rest ih =>
    simp only [processScheduleRows] at h
    split at h
    · cases h
    · rename_i db1 hstep
      exact fun x hx => ih db1 h (processScheduleRow_subset y m db r db1 hstep hx)

theorem processScheduleRows_key (y : Int) (m : Str) (rows : List (List SCell))
    (db db' : List GameLog)
    (h : processScheduleRows y m db rows = .ok db') :
    ∀ cells ∈ rows, ¬ cells.length < 9 →
      db'.any (fun g => g.game_date == (cells.getD 0 scellDefault).text &&
        g.visitor_team == (cells.getD 2 scellDefault).text &&
        g.home_team == (cells.getD 4 scellDefault).text) = true := by
  induction rows generalizing db with
  | nil => intro cells hc; cases hc
  | cons r rest ih =>
    intro cells hc hlen
    simp only [processScheduleRows] at h
    split at h
    · cases h
    · rename_i db1 hstep
      rcases List.mem_cons.mp hc with hc | hc
      · subst hc
        exact any_of_subset (processScheduleRows_subset y m rest db1 db' h)
          (processScheduleRow_key y m db cells db1 hstep hlen)
      · exact ih db1 h cells hc hlen

theorem processScheduleRows_all_skip (y : Int) (m : Str) (rows : List (List SCell))
    (db : List GameLog)
    (hpresent : ∀ cells ∈ rows, ¬ cells.length < 9 →
      db.any (fun g => g.game_date == (cells.getD 0 scellDefault).text &&
        g.visitor_team == (cells.getD 2 scellDefault).text &&
        g.home_team == (cells.getD 4 scellDefault).text) = true) :
    processScheduleRows y m db rows = .ok db := by
  induction rows with
  | nil => rfl
  | cons r rest ih =>
    simp only [processScheduleRows]
    rw [processScheduleRow_skip y m db r (hpresent r (List.mem_cons_self r rest))]
    exact ih (fun cells hc => hpresent cells (List.mem_cons_of_mem r hc))

theorem processScheduleRows_idem (y : Int) (m : Str) (rows : List (List SCell))
    (db db' : List GameLog)
    (h : processScheduleRows y m db rows = .ok db') :
    processScheduleRows y m db' rows = .ok db' :=
  processScheduleRows_all_skip y m rows db'
    (fun cells hc hlen => processScheduleRows_key y m rows db db' h cells hc hlen)

/-! ## The claims -/

/-- Headers of a roster table that lacks a College column, and one body row
under them. -/
def headersNoCollege : List Str :=
  [str "Player", str "Pos", str "Ht", str "Wt", str "Birth Date", str "Birth", str "Exp"]

/-- The cell texts of the roster row used in the C3 counterexample. -/
def valsJohn : List Str :=
  [str "John Smith", str "SG", str "6-5", str "200", str "June 1, 1998", str "us", str "2"]

/-- The candidate produced from that row: its `college` field is absent
(`player_data.get("College")` is `None`), stored as SQL NULL. -/
def cNull : PlayerRow :=
  { name := some (str "John Smith"), team := str "BOS", position := some (str "SG"),
    height := some (str "6-5"), weight := 200,
    birth_date := some (str "June 1, 1998"), birth_country := some (str "us"),
    experience := some (str "2"), college := none }

/-- The same candidate with every key field present. -/
def cFull : PlayerRow := { cNull with college := some (str "Duke") }

/-- C3, counterexample: re-ingesting the same roster row whose College cell is
missing inserts a net new `players` row on the second run, because the
duplicate check `college = ?` with a NULL parameter never matches in SQLite.
So the claim "running the driver a second time over an unchanged set of
source documents inserts zero net new rows", quantified over every driver and
every candidate row, is false for the players check-then-insert driver. -/
theorem claim_C3_counterexample :
    ingest_roster_row_full [] headersNoCollege valsJohn (str "BOS") = .ok [cNull] ∧
    ingest_roster_row_full [cNull] headersNoCollege valsJohn (str "BOS") = .ok [cNull, cNull] ∧
    [cNull, cNull] ≠ [cNull] := by decide

/-- C3, amended: a second run over unchanged sources inserts zero net new rows
for the basic box-score store, the advanced box-score store (both
`INSERT OR IGNORE` under the composite UNIQUE key) and the gamelogs
check-then-insert, unconditionally; and for both players check-then-insert
variants provided every key field of every candidate is non-NULL. In all
stores a candidate whose key already exists is skipped, leaving the first
write in place, and a duplicate is never an error (the operations are total). -/
theorem claim_C3_upsert_idempotence :
    (∀ (db rows : List BoxRow),
      store_box_score_rows (store_box_score_rows db rows) rows = store_box_score_rows db rows) ∧
    (∀ (db rows : List AdvRow),
      store_advanced_box_score_rows (store_advanced_box_score_rows db rows) rows =
        store_advanced_box_score_rows db rows) ∧
    (∀ (y : Int) (m : Str) (rows : List (List SCell)) (db db' : List GameLog),
      processScheduleRows y m db rows = .ok db' →
        processScheduleRows y m db' rows = .ok db') ∧
    (∀ (db cands : List PlayerRow), (∀ c ∈ cands, key9Eq c c = true) →
      runUpsert key9Eq (runUpsert key9Eq db cands) cands = runUpsert key9Eq db cands) ∧
    (∀ (db cands : List PlayerRow), (∀ c ∈ cands, key4Eq c c = true) →
      runUpsert key4Eq (runUpsert key4Eq db cands) cands = runUpsert key4Eq db cands) ∧
    (∀ (db : List BoxRow) (r : BoxRow), db.any (fun x => boxKeyEq r x) = true →
      store_box_score_rows db [r] = db) := by
  refine ⟨fun db rows => ?_, fun db rows => ?_, processScheduleRows_idem,
          fun db cands h => runUpsert_idem key9Eq cands db h,
          fun db cands h => runUpsert_idem key4Eq cands db h,
          fun db r h => upsert_skip boxKeyEq db r h⟩
  · exact runUpsert_idem boxKeyEq rows db (fun r _ => boxKeyEq_refl r)
  · exact runUpsert_idem advKeyEq rows db (fun r _ => advKeyEq_refl r)

/-- Witness for C3: the players-driver conjunct applied at a concrete
candidate with all key fields present. -/
theorem claim_C3_witness :
    (∀ c ∈ [cFull], key9Eq c c = true) ∧
    runUpsert key9Eq (runUpsert key9Eq [] [cFull]) [cFull] = runUpsert key9Eq [] [cFull] :=
  ⟨by decide, claim_C3_upsert_idempotence.2.2.2.1 [] [cFull] (by decide)⟩

/-- The schedule row of the C4 scenario: date, start time, visitor, visitor
points, home, home points, the box-score cell with its anchor href, overtime,
attendance, notes. -/
def knicksCells : List SCell :=
  [{ text := str "Tue, Oct 22, 2024", href := none },
   { text := str "7:30p", href := none },
   { text := str "New York Knicks", href := none },
   { text := str "109", href := none },
   { text := str "Boston Celtics", href := none },
   { text := str "132", href := none },
   { text := str "Box Score", href := some (str "/boxscores/202410220BOS.html") },
   { text := [], href := none },
   { text := str "19156", href := none },
   { text := [], href := none }]

/-- The gamelogs row that ingesting `knicksCells` produces. -/
def knicksGame : GameLog :=
  { season_year := 2025, month := str "October", game_date := str "Tue, Oct 22, 2024",
    start_et := str "7:30p", visitor_team := str "New York Knicks", visitor_pts := 109,
    home_team := str "Boston Celtics", home_pts := 132,
    box_score_link := some (str "https://www.basketball-reference.com/boxscores/202410220BOS.html"),
    overtime := [], attendance := str "19156", notes := [] }

/-- C4: ingesting the example schedule row into an empty gamelogs store
inserts exactly one row, with `home_pts = 132`, `visitor_pts = 109` and the
box-score href prefixed with the site origin; re-ingesting the identical row,
matched on `(game_date, visitor_team, home_team)`, inserts nothing. -/
theorem claim_C4_example_schedule_row :
    processScheduleRow 2025 (str "october") [] knicksCells = .ok [knicksGame] ∧
    knicksGame.home_pts = 132 ∧ knicksGame.visitor_pts = 109 ∧
    knicksGame.box_score_link =
      some (str "https://www.basketball-reference.com/boxscores/202410220BOS.html") ∧
    processScheduleRow 2025 (str "october") [knicksGame] knicksCells = .ok [knicksGame] := by
  decide

theorem parseBoxRow_spec (row : BRow) (link team name : Str) (d : BoxRow)
    (h : parseBoxRow row link team name = .ok d) :
    d.box_score_link = link ∧ d.team = team ∧ d.player_name = name ∧
    d.starter = (if row.classes.contains (str "starter") then 1 else 0) ∧
    d.mp = findStat row (str "mp") ∧
    statInt (findStat row (str "fg")) = .ok d.fg ∧
    statInt (findStat row (str "fga")) = .ok d.fga ∧
    statFloat (findStat row (str "fg_pct")) = .ok d.fg_pct ∧
    statInt (findStat row (str "fg3")) = .ok d.threep ∧
    statInt (findStat row (str "fg3a")) = .ok d.threepa ∧
    statFloat (findStat row (str "fg3_pct")) = .ok d.threep_pct ∧
    statInt (findStat row (str "ft")) = .ok d.ft ∧
    statInt (findStat row (str "fta")) = .ok d.fta ∧
    statFloat (findStat row (str "ft_pct")) = .ok d.ft_pct ∧
    statInt (findStat row (str "orb")) = .ok d.orb ∧
    statInt (findStat row (str "drb")) = .ok d.drb ∧
    statInt (findStat row (str "trb")) = .ok d.trb ∧
    statInt (findStat row (str "ast")) = .ok d.ast ∧
    statInt (findStat row (str "stl")) = .ok d.stl ∧
    statInt (findStat row (str "blk")) = .ok d.blk ∧
    statInt (findStat row (str "tov")) = .ok d.tov ∧
    statInt (findStat row (str "pf")) = .ok d.pf ∧
    statInt (findStat row (str "pts")) = .ok d.pts ∧
    statInt (findStat row (str "plus_minus")) = .ok d.plus_minus := by
  simp only [parseBoxRow] at h
  obtain ⟨fg, hfg, h⟩ := exceptBind_ok_iff.mp h
  obtain ⟨fga, hfga, h⟩ := exceptBind_ok_iff.mp h
  obtain ⟨fg_pct, hfgp, h⟩ := exceptBind_ok_iff.mp h
  obtain ⟨threep, h3p, h⟩ := exceptBind_ok_iff.mp h
  obtain ⟨threepa, h3pa, h⟩ := exceptBind_ok_iff.mp h
  obtain ⟨threep_pct, h3pp, h⟩ := exceptBind_ok_iff.mp h
  obtain ⟨ft, hft, h⟩ := exceptBind_ok_iff.mp h
  obtain ⟨fta, hfta, h⟩ := exceptBind_ok_iff.mp h
  obtain ⟨ft_pct, hftp, h⟩ := exceptBind_ok_iff.mp h
  obtain ⟨orb, horb, h⟩ := exceptBind_ok_iff.mp h
  obtain ⟨drb, hdrb, h⟩ := exceptBind_ok_iff.mp h
  obtain ⟨trb, htrb, h⟩ := exceptBind_ok_iff.mp h
  obtain ⟨ast, hast, h⟩ := exceptBind_ok_iff.mp h
  obtain ⟨stl, hstl, h⟩ := exceptBind_ok_iff.mp h
  obtain ⟨blk, hblk, h⟩ := exceptBind_ok_iff.mp h
  obtain ⟨tov, htov, h⟩ := exceptBind_ok_iff.mp h
  obtain ⟨pf, hpf, h⟩ := exceptBind_ok_iff.mp h
  obtain ⟨pts, hpts, h⟩ := exceptBind_ok_iff.mp h
  obtain ⟨plus_minus, hpm, h⟩ := exceptBind_ok_iff.mp h
  rw [exceptPure_ok_iff] at h
  subst h
  exact ⟨rfl, rfl, rfl, rfl, rfl, hfg, hfga, hfgp, h3p, h3pa, h3pp, hft, hfta, hftp,
         horb, hdrb, htrb, hast, hstl, hblk, htov, hpf, hpts, hpm⟩

theorem parseAdvRow_spec (row : BRow) (link team name : Str) (d : AdvRow)
    (h : parseAdvRow row link team name = .ok d) :
    d.box_score_link = link ∧ d.team = team ∧ d.player_name = name ∧
    d.mp = findStat row (str "mp") ∧
    statFloat (findStat row (str "ts_pct")) = .ok d.ts_pct ∧
    statInt (findStat row (str "off_rtg")) = .ok d.ortg := by
  simp only [parseAdvRow] at h
  obtain ⟨ts_pct, hts, h⟩ := exceptBind_ok_iff.mp h
  obtain ⟨efg_pct, hefg, h⟩ := exceptBind_ok_iff.mp h
  obtain ⟨a3, h3, h⟩ := exceptBind_ok_iff.mp h
  obtain ⟨a4, h4, h⟩ := exceptBind_ok_iff.mp h
  obtain ⟨a5, h5, h⟩ := exceptBind_ok_iff.mp h
  obtain ⟨a6, h6, h⟩ := exceptBind_ok_iff.mp h
  obtain ⟨a7, h7, h⟩ := exceptBind_ok_iff.mp h
  obtain ⟨a8, h8, h⟩ := exceptBind_ok_iff.mp h
  obtain ⟨a9, h9, h⟩ := exceptBind_ok_iff.mp h
  obtain ⟨a10, h10, h⟩ := exceptBind_ok_iff.mp h
  obtain ⟨a11, h11, h⟩ := exceptBind_ok_iff.mp h
  obtain ⟨a12, h12, h⟩ := exceptBind_ok_iff.mp h
  obtain ⟨ortg, hortg, h⟩ := exceptBind_ok_iff.mp h
  obtain ⟨drtg, hdrtg, h⟩ := exceptBind_ok_iff.mp h
  rw [exceptPure_ok_iff] at h
  subst h
  exact ⟨rfl, rfl, rfl, rfl, hts, hortg⟩

theorem parseBoxRows_names (link team : Str) :
    ∀ (rows : List BRow) (out : List BoxRow), parseBoxRows link team rows = .ok out →
      ∀ d ∈ out, d.player_name ≠ [] ∧ containsSub (str "Totals") d.player_name = false := by
  intro rows
  induction rows with
  | nil =>
    intro out h d hd
    cases Except.ok.inj h
    cases hd
  | cons row rest ih =>
    intro out h
    simp only [parseBoxRows] at h
    split at h
    · exact ih out h
    · split at h
      · exact ih out h
      · split at h
        · exact ih out h
        · rename_i name hname
          split at h
          · exact ih out h
          · rename_i hgood
            obtain ⟨d0, hd0, h⟩ := exceptBind_ok_iff.mp h
            obtain ⟨ds, hds, h⟩ := exceptBind_ok_iff.mp h
            rw [exceptPure_ok_iff] at h
            subst h
            intro d hd
            rcases List.mem_cons.mp hd with hd | hd
            · rw [hd, (parseBoxRow_spec row link team name d0 hd0).2.2.1]
              simpa using hgood
            · exact ih ds hds d hd

theorem parseAdvRows_names (link team : Str) :
    ∀ (rows : List BRow) (out : List AdvRow), parseAdvRows link team rows = .ok out →
      ∀ d ∈ out, d.player_name ≠ [] ∧ containsSub (str "Totals") d.player_name = false := by
  intro rows
  induction rows with
  | nil =>
    intro out h d hd
    cases Except.ok.inj h
    cases hd
  | cons row rest ih =>
    intro out h
    simp only [parseAdvRows] at h
    split at h
    · exact ih out h
    · split at h
      · exact ih out h
      · rename_i name hname
        split at h
        · exact ih out h
        · rename_i hgood
          obtain ⟨d0, hd0, h⟩ := exceptBind_ok_iff.mp h
          obtain ⟨ds, hds, h⟩ := exceptBind_ok_iff.mp h
          rw [exceptPure_ok_iff] at h
          subst h
          intro d hd
          rcases List.mem_cons.mp hd with hd | hd
          · rw [hd, (parseAdvRow_spec row link team name d0 hd0).2.2.1]
            simpa using hgood
          · exact ih ds hds d hd

theorem parseBoxRows_skip (row : BRow) (rest : List BRow) (link team : Str)
    (hex : row.classes.contains (str "thead") = true ∨
           findStat row (str "player") = none ∨
           (∃ nm, findStat row (str "player") = some nm ∧
                  (nm = [] ∨ containsSub (str "Totals") nm = true))) :
    parseBoxRows link team (row :: rest) = parseBoxRows link team rest := by
  rcases hex with h | h | ⟨nm, hnm, hbad⟩
  · simp only [parseBoxRows]
    rw [if_pos h]
  · simp only [parseBoxRows]
    by_cases ht : row.classes.contains (str "thead") = true
    · rw [if_pos ht]
    · rw [if_neg ht]
      by_cases hc : row.cells = []
      · rw [if_pos hc]
      · rw [if_neg hc, h]
  · simp only [parseBoxRows]
    by_cases ht : row.classes.contains (str "thead") = true
    · rw [if_pos ht]
    · rw [if_neg ht]
      by_cases hc : row.cells = []
      · rw [if_pos hc]
      · rw [if_neg hc, hnm]
        have hcond : (decide (nm = []) || containsSub (str "Totals") nm) = true := by
          rcases hbad with hb | hb <;> simp [hb]
        simp only [hcond, if_true]

theorem parseAdvRows_skip (row : BRow) (rest : List BRow) (link team : Str)
    (hex : row.classes.contains (str "thead") = true ∨
           findStat row (str "player") = none ∨
           (∃ nm, findStat row (str "player") = some nm ∧
                  (nm = [] ∨ containsSub (str "Totals") nm = true))) :
    parseAdvRows link team (row :: rest) = parseAdvRows link team rest := by
  rcases hex with h | h | ⟨nm, hnm, hbad⟩
  · simp only [parseAdvRows]
    rw [if_pos h]
  · simp only [parseAdvRows]
    by_cases ht : row.classes.contains (str "thead") = true
    · rw [if_pos ht]
    · rw [if_neg ht, h]
  · simp only [parseAdvRows]
    by_cases ht : row.classes.contains (str "thead") = true
    · rw [if_pos ht]
    · rw [if_neg ht, hnm]
      have hcond : (decide (nm = []) || containsSub (str "Totals") nm) = true := by
        rcases hbad with hb | hb <;> simp [hb]
      simp only [hcond, if_true]

/-- C1: both box-score row extractors never emit a record whose player-name
field is empty or contains `"Totals"`; and any body row that carries the
`thead` header-repeat class, or whose `data-stat="player"` cell is missing,
empty, or contains `"Totals"`, contributes nothing to the output. -/
theorem claim_C1_extractor_filters :
    (∀ (tbody : Option (List BRow)) (link team : Str) (out : List BoxRow),
       parse_box_score_table tbody link team = .ok out →
       ∀ d ∈ out, d.player_name ≠ [] ∧ containsSub (str "Totals") d.player_name = false) ∧
    (∀ (tbody : Option (List BRow)) (link team : Str) (out : List AdvRow),
       parse_advanced_box_score_table tbody link team = .ok out →
       ∀ d ∈ out, d.player_name ≠ [] ∧ containsSub (str "Totals") d.player_name = false) ∧
    (∀ (row : BRow) (rest : List BRow) (link team : Str),
       (row.classes.contains (str "thead") = true ∨
        findStat row (str "player") = none ∨
        (∃ nm, findStat row (str "player") = some nm ∧
               (nm = [] ∨ containsSub (str "Totals") nm = true))) →
       parseBoxRows link team (row :: rest) = parseBoxRows link team rest ∧
       parseAdvRows link team (row :: rest) = parseAdvRows link team rest) := by
  refine ⟨fun tbody link team out h => ?_, fun tbody link team out h => ?_,
          fun row rest link team hex =>
            ⟨parseBoxRows_skip row rest link team hex, parseAdvRows_skip row rest link team hex⟩⟩
  · cases tbody with
    | none => cases Except.ok.inj h; intro d hd; cases hd
    | some rows => exact parseBoxRows_names link team rows out h
  · cases tbody with
    | none => cases Except.ok.inj h; intro d hd; cases hd
    | some rows => exact parseAdvRows_names link team rows out h

/-- A header-repeat row, a Team Totals row and one genuine player row. -/
def wRowThead : BRow :=
  { classes := [str "thead"], cells := [{ stat := str "player", text := str "Header" }] }

/-- A Team Totals aggregate row. -/
def wRowTotals : BRow :=
  { classes := [], cells := [{ stat := str "player", text := str "Team Totals" }] }

/-- A genuine starter row with a made-field-goals cell and a minutes cell. -/
def wRowTatum : BRow :=
  { classes := [str "starter"],
    cells := [{ stat := str "player", text := str "Jayson Tatum" },
              { stat := str "fg", text := str "9" },
              { stat := str "mp", text := str "39:30" }] }

/-- The line the basic extractor produces for `wRowTatum`. -/
def wTatumLine : BoxRow :=
  { box_score_link := str "L", team := str "Boston Celtics",
    player_name := str "Jayson Tatum", starter := 1, mp := some (str "39:30"),
    fg := 9, fga := 0, fg_pct := 0, threep := 0, threepa := 0, threep_pct := 0,
    ft := 0, fta := 0, ft_pct := 0, orb := 0, drb := 0, trb := 0, ast := 0,
    stl := 0, blk := 0, tov := 0, pf := 0, pts := 0, plus_minus := 0 }

/-- Witness for C1 at a concrete table body: only the genuine row survives,
and its name is neither empty nor a Totals marker. -/
theorem claim_C1_witness :
    parse_box_score_table (some [wRowThead, wRowTotals, wRowTatum]) (str "L")
      (str "Boston Celtics") = .ok [wTatumLine] ∧
    (wTatumLine.player_name ≠ [] ∧
     containsSub (str "Totals") wTatumLine.player_name = false) :=
  ⟨by decide,
   claim_C1_extractor_filters.1 (some [wRowThead, wRowTotals, wRowTatum]) (str "L")
     (str "Boston Celtics") [wTatumLine] (by decide) wTatumLine (by decide)⟩

/-- C2: a numeric cell that is absent or has empty text coerces to zero rather
than raising, for integer and float fields alike; on a successfully parsed
row a missing `data-stat="fg3_pct"` cell yields `threep_pct = 0`; and the
free-text minutes field is passed through untouched, an absent cell staying
`none`, distinct from a present-but-empty cell (`some ""`). -/
theorem claim_C2_numeric_defaults :
    (∀ cell : Option Str, cell = none ∨ cell = some [] →
       statInt cell = .ok 0 ∧ statFloat cell = .ok 0) ∧
    (∀ (row : BRow) (link team name : Str) (d : BoxRow),
       parseBoxRow row link team name = .ok d →
       (findStat row (str "fg3_pct") = none → d.threep_pct = 0) ∧
       ((findStat row (str "fg") = none ∨ findStat row (str "fg") = some []) → d.fg = 0) ∧
       d.mp = findStat row (str "mp") ∧
       (findStat row (str "mp") = none → d.mp = none) ∧
       (findStat row (str "mp") = some [] → d.mp = some [] ∧ d.mp ≠ none)) ∧
    (∀ (row : BRow) (link team name : Str) (d : AdvRow),
       parseAdvRow row link team name = .ok d → d.mp = findStat row (str "mp")) := by
  refine ⟨fun cell h => ?_, fun row link team name d h => ?_,
          fun row link team name d h => (parseAdvRow_spec row link team name d h).2.2.2.1⟩
  · rcases h with rfl | rfl
    · exact ⟨rfl, rfl⟩
    · exact ⟨by decide, by decide⟩
  · obtain ⟨-, -, -, -, hmp, hfg, -, -, -, -, h3pp, -, -, -, -, -, -, -, -, -, -, -, -, -⟩ :=
      parseBoxRow_spec row link team name d h
    refine ⟨fun habs => ?_, fun habs => ?_, hmp, fun habs => ?_, fun habs => ?_⟩
    · rw [habs] at h3pp
      exact (Except.ok.inj h3pp).symm
    · rcases habs with habs | habs <;> rw [habs] at hfg
      · exact (Except.ok.inj hfg).symm
      · rw [show statInt (some []) = .ok 0 by decide] at hfg
        exact (Except.ok.inj hfg).symm
    · rw [hmp, habs]
    · rw [hmp, habs]
      exact ⟨rfl, by simp⟩

/-- A row with a player cell and a minutes cell but no `fg3_pct` cell. -/
def wRowNoFg3 : BRow :=
  { classes := [], cells := [{ stat := str "player", text := str "A Player" }] }

/-- The line the basic extractor produces for `wRowNoFg3`: every stat
defaults, in particular `threep_pct = 0`, and `mp` is `none`. -/
def wNoFg3Line : BoxRow :=
  { box_score_link := str "L", team := str "T", player_name := str "A Player",
    starter := 0, mp := none, fg := 0, fga := 0, fg_pct := 0, threep := 0,
    threepa := 0, threep_pct := 0, ft := 0, fta := 0, ft_pct := 0, orb := 0,
    drb := 0, trb := 0, ast := 0, stl := 0, blk := 0, tov := 0, pf := 0,
    pts := 0, plus_minus := 0 }

/-- Witness for C2: the example scenario, a row with no `fg3_pct` cell
parses without error and yields `threep_pct = 0`. -/
theorem claim_C2_witness :
    parseBoxRow wRowNoFg3 (str "L") (str "T") (str "A Player") = .ok wNoFg3Line ∧
    wNoFg3Line.threep_pct = 0 :=
  ⟨by decide,
   (claim_C2_numeric_defaults.2.1 wRowNoFg3 (str "L") (str "T") (str "A Player")
     wNoFg3Line (by decide)).1 (by decide)⟩

/-- A row whose made-field-goals cell holds non-numeric text. -/
def badRow : BRow :=
  { classes := [],
    cells := [{ stat := str "player", text := str "Jalen Brunson" },
              { stat := str "fg", text := str "abc" }] }

/-- A basic box-score table containing `badRow`. -/
def badTable : BTable :=
  { idAttr := str "box-NYK-game-basic",
    caption := some (str "New York Knicks Basic and Advanced Stats"),
    tbody := some [badRow] }

/-- A well-formed row on the second work item's page. -/
def goodRow : BRow :=
  { classes := [], cells := [{ stat := str "player", text := str "Derrick White" }] }

/-- A basic box-score table containing `goodRow`. -/
def goodTable : BTable :=
  { idAttr := str "box-BOS-game-basic",
    caption := some (str "Boston Celtics Basic and Advanced Stats"),
    tbody := some [goodRow] }

/-- The line the second work item would store. -/
def goodLine : BoxRow :=
  { box_score_link := str "L2", team := str "Boston Celtics",
    player_name := str "Derrick White", starter := 0, mp := none,
    fg := 0, fga := 0, fg_pct := 0, threep := 0, threepa := 0, threep_pct := 0,
    ft := 0, fta := 0, ft_pct := 0, orb := 0, drb := 0, trb := 0, ast := 0,
    stl := 0, blk := 0, tov := 0, pf := 0, pts := 0, plus_minus := 0 }

/-- C9, counterexample: with a work list of two links, the first of whose pages
holds a present-but-non-numeric `fg` cell, the driver aborts with the
uncaught coercion error instead of skipping that item — the second link, which
alone would have stored a player line, is never processed. So the claim that
a coercion failure "is fatal only for that row's work item" and that the
driver "continues processing the remaining box-score links" is false. -/
theorem claim_C9_counterexample :
    scrape_box_scores_driver
      [(str "L1", .page [badTable]), (str "L2", .page [goodTable])] [] = .error () ∧
    scrape_box_scores_driver [(str "L2", .page [goodTable])] [] = .ok [goodLine] := by
  decide

/-- C9, amended: a present non-empty numeric cell goes through `int`/`float`
unchanged, so a parse failure surfaces as an error rather than being zeroed;
a transport failure for one work item is caught, that item contributes no
rows and the driver advances to the next item; but a coercion error
propagates out of `scrape_single_box_score` uncaught and aborts the whole
remaining batch. -/
theorem claim_C9_coercion_error_aborts_batch :
    (∀ t : Str, t ≠ [] →
       statInt (some t) = pyInt t ∧ statFloat (some t) = pyFloat t) ∧
    (∀ (link : Str) (rest : List (Str × FetchResult)) (db : List BoxRow),
       scrape_box_scores_driver ((link, .transportError) :: rest) db =
         scrape_box_scores_driver rest db) ∧
    (∀ (link : Str) (tables : List BTable) (rest : List (Str × FetchResult))
       (db : List BoxRow),
       scrape_single_box_score (.page tables) link = .error () →
       scrape_box_scores_driver ((link, .page tables) :: rest) db = .error ()) := by
  refine ⟨fun t ht => ⟨by simp [statInt, ht], by simp [statFloat, ht]⟩,
          fun link rest db => ?_, fun link tables rest db h => ?_⟩
  · by_cases hl : link = []
    · simp [scrape_box_scores_driver, hl]
    · simp [scrape_box_scores_driver, scrape_single_box_score, hl]
  · by_cases hl : link = []
    · rw [hl] at h
      exact absurd h (by simp [scrape_single_box_score])
    · simp [scrape_box_scores_driver, hl, h]

/-- Witness for C9: the non-empty text `"abc"` is parsed, not zeroed, and the
resulting errors surface. -/
theorem claim_C9_witness :
    str "abc" ≠ [] ∧
    (statInt (some (str "abc")) = pyInt (str "abc") ∧
     statFloat (some (str "abc")) = pyFloat (str "abc")) :=
  ⟨by decide, claim_C9_coercion_error_aborts_batch.1 (str "abc") (by decide)⟩

theorem findTableL_happend (tid : Str) :
    ∀ a b : HNodes,
      findTableL tid (happend a b) =
        (match findTableL tid a with
         | some t => some t
         | none => findTableL tid b)
  | .nil, b => rfl
  | .cons n ns, b => by
    simp only [happend, findTableL]
    cases hfn : findTableN tid n
    · simp only [findTableL_happend tid ns b]
    · rfl

theorem commentsL_happend :
    ∀ a b : HNodes, commentsL (happend a b) = commentsL a ++ commentsL b
  | .nil, b => rfl
  | .cons n ns, b => by
    simp only [happend, commentsL, commentsL_happend ns b, List.append_assoc]

theorem searchComments_append (tid : Str) :
    ∀ A B : List HNodes,
      searchComments tid (A ++ B) =
        (match searchComments tid A with
         | some t => some t
         | none => searchComments tid B)
  | [], B => rfl
  | f :: A, B => by
    simp only [List.cons_append, searchComments]
    cases hf : findTableL tid f
    · exact searchComments_append tid A B
    · rfl

/-- A basic box-score table node with the given id. -/
def boxTableNode : HNode := .elem (str "table") (some (str "box-BOS-game-basic")) .nil

/-- A document holding that table only inside an HTML comment. -/
def docCommentOnly : HNodes := .cons (.comment (.cons boxTableNode .nil)) .nil

/-- The same document with the table as live markup. -/
def docLive : HNodes := .cons boxTableNode .nil

/-- C5, counterexample: the box-score scraper's table-locating step
(`soup.find_all("table")` filtered by the `box-*-game-basic` id pattern)
searches only the live tree, so on a document whose only basic box-score
table sits inside a comment it finds nothing, while on the comment-unwrapped
document it finds the table — the two results differ, refuting the claim that
comment-wrapping is transparent for every target table. -/
theorem claim_C5_counterexample :
    boxBasicTables docCommentOnly = [] ∧
    boxBasicTables docLive = [boxTableNode] ∧
    boxBasicTables docCommentOnly ≠ boxBasicTables docLive := by
  decide

/-- C5, amended: the locators that implement the comment fallback — the
roster and schedule table lookups — do treat comment-wrapping transparently:
on a document in which the table is not found at all, appending the table
inside a comment or appending it live both locate exactly that table. The
box-score table enumeration has no comment fallback: a comment node
contributes no tables to it. -/
theorem claim_C5_comment_transparency :
    (∀ (doc : HNodes) (tid : Str) (cs : HNodes),
       locateTable doc tid = none →
       locateTable
         (happend doc (.cons (.comment (.cons (.elem (str "table") (some tid) cs) .nil)) .nil))
         tid = some (.elem (str "table") (some tid) cs) ∧
       locateTable (happend doc (.cons (.elem (str "table") (some tid) cs) .nil)) tid =
         some (.elem (str "table") (some tid) cs)) ∧
    (∀ (frag rest : HNodes),
       boxBasicTables (.cons (.comment frag) rest) = boxBasicTables rest ∧
       boxAdvancedTables (.cons (.comment frag) rest) = boxAdvancedTables rest) := by
  constructor
  · intro doc tid cs hnone
    have hmatch : findTableN tid (.elem (str "table") (some tid) cs) =
        some (.elem (str "table") (some tid) cs) := by
      simp [findTableN]
    have hf : findTableL tid doc = none := by
      unfold locateTable at hnone
      cases hfd : findTableL tid doc
      · rfl
      · rw [hfd] at hnone
        cases hnone
    have hs : searchComments tid (commentsL doc) = none := by
      unfold locateTable at hnone
      rw [hf] at hnone
      exact hnone
    constructor
    · unfold locateTable
      rw [findTableL_happend tid, hf]
      have hfc : findTableL tid
          (.cons (.comment (.cons (.elem (str "table") (some tid) cs) .nil)) .nil) = none := by
        simp [findTableL, findTableN]
      rw [hfc]
      rw [commentsL_happend, searchComments_append tid, hs]
      simp [commentsL, commentsN, searchComments, findTableL, hmatch]
    · unfold locateTable
      rw [findTableL_happend tid, hf]
      simp [findTableL, hmatch]
  · intro frag rest
    constructor
    · simp [boxBasicTables, allTablesL, allTablesN]
    · simp [boxAdvancedTables, allTablesL, allTablesN]

/-- Witness for C5: the transparency conjunct applied to the empty document
and a roster table. -/
theorem claim_C5_witness :
    locateTable
      (happend .nil
        (.cons (.comment (.cons (.elem (str "table") (some (str "roster")) .nil) .nil)) .nil))
      (str "roster") = some (.elem (str "table") (some (str "roster")) .nil) ∧
    locateTable (happend .nil (.cons (.elem (str "table") (some (str "roster")) .nil) .nil))
      (str "roster") = some (.elem (str "table") (some (str "roster")) .nil) :=
  claim_C5_comment_transparency.1 .nil (str "roster") .nil (by decide)

theorem urlSearchAux_step (existing : List Str) (first last : Str) (suffix f : Nat) :
    urlSearchAux existing first last suffix (f + 1) =
      if existing.contains (candidateUrl first last suffix) = false then
        some (candidateUrl first last suffix)
      else if 99 < suffix + 1 then none
      else urlSearchAux existing first last (suffix + 1) f := rfl

theorem urlSearchAux_zero (existing : List Str) (first last : Str) (suffix : Nat) :
    urlSearchAux existing first last suffix 0 =
      if existing.contains (candidateUrl first last suffix) = false then
        some (candidateUrl first last suffix)
      else none := rfl

theorem urlSearchAux_spec (existing : List Str) (first last : Str) :
    ∀ fuel suffix : Nat, suffix + fuel = 100 → 1 ≤ suffix → suffix ≤ 99 →
      (∀ u, urlSearchAux existing first last suffix fuel = some u →
        ∃ k, suffix ≤ k ∧ k ≤ 99 ∧ u = candidateUrl first last k ∧
             existing.contains u = false ∧
             ∀ j, suffix ≤ j → j < k →
               existing.contains (candidateUrl first last j) = true) ∧
      ((∀ k, suffix ≤ k → k ≤ 99 → existing.contains (candidateUrl first last k) = true) →
        urlSearchAux existing first last suffix fuel = none) := by
  intro fuel
  induction fuel with
  | zero => intro suffix h100 h1 h99; omega
  | succ f ih =>
    intro suffix h100 h1 h99
    constructor
    · intro u hu
      rw [urlSearchAux_step] at hu
      by_cases hc : existing.contains (candidateUrl first last suffix) = false
      · rw [if_pos hc] at hu
        cases Option.some.inj hu
        exact ⟨suffix, le_refl _, h99, rfl, hc,
               fun j hj1 hj2 => absurd (lt_of_le_of_lt hj1 hj2) (lt_irrefl _)⟩
      · rw [if_neg hc] at hu
        by_cases hcap : 99 < suffix + 1
        · rw [if_pos hcap] at hu
          cases hu
        · rw [if_neg hcap] at hu
          obtain ⟨k, hk1, hk2, hk3, hk4, hk5⟩ :=
            (ih (suffix + 1) (by omega) (by omega) (by omega)).1 u hu
          refine ⟨k, by omega, hk2, hk3, hk4, fun j hj1 hj2 => ?_⟩
          by_cases hj : j = suffix
          · subst hj
            revert hc
            cases existing.contains (candidateUrl first last j) <;> simp
          · exact hk5 j (by omega) hj2
    · intro hall
      rw [urlSearchAux_step]
      have hc : existing.contains (candidateUrl first last suffix) = true :=
        hall suffix (le_refl _) h99
      rw [if_neg (fun hfalse => by rw [hc] at hfalse; cases hfalse)]
      by_cases hcap : 99 < suffix + 1
      · rw [if_pos hcap]
      · rw [if_neg hcap]
        exact (ih (suffix + 1) (by omega) (by omega) (by omega)).2
          (fun k hk1 hk2 => hall k (by omega) hk2)

theorem urlSearchAux_not_mem (existing : List Str) (first last : Str) :
    ∀ fuel suffix u, urlSearchAux existing first last suffix fuel = some u →
      existing.contains u = false := by
  intro fuel
  induction fuel with
  | zero =>
    intro suffix u hu
    rw [urlSearchAux_zero] at hu
    split at hu
    · cases Option.some.inj hu
      assumption
    · cases hu
  | succ f ih =>
    intro suffix u hu
    rw [urlSearchAux_step] at hu
    split at hu
    · cases Option.some.inj hu
      assumption
    · split at hu
      · cases hu
      · exact ih (suffix + 1) u hu

theorem construct_url_not_mem (nm : Str) (existing : List Str) (u : Str)
    (h : construct_url nm existing = some u) : existing.contains u = false := by
  unfold construct_url at h
  split at h
  · cases h
  · cases h
  · exact urlSearchAux_not_mem existing _ _ 99 1 u h

theorem lookup_mem : ∀ (l : List (Nat × Str)) (a : Nat) (b : Str),
    l.lookup a = some b → (a, b) ∈ l := by
  intro l
  induction l with
  | nil => intro a b h; cases h
  | cons p rest ih =>
    intro a b h
    obtain ⟨pa, pb⟩ := p
    simp only [List.lookup] at h
    cases hk : (a == pa)
    · rw [hk] at h
      exact List.mem_cons_of_mem _ (ih a b h)
    · rw [hk] at h
      cases Option.some.inj h
      have : a = pa := by simpa using hk
      subst this
      exact List.mem_cons_self _ _

theorem assignUrls_fresh : ∀ (ps : List (Nat × Str)) (existing : List Str),
    (∀ u ∈ (assignUrls existing ps).map Prod.snd, existing.contains u = false) ∧
    ((assignUrls existing ps).map Prod.snd).Nodup := by
  intro ps
  induction ps with
  | nil => intro existing; exact ⟨fun u hu => (by cases hu), List.nodup_nil⟩
  | cons p rest ih =>
    intro existing
    obtain ⟨pid, nm⟩ := p
    cases hcu : construct_url nm existing with
    | none =>
      simpa only [assignUrls, hcu] using ih existing
    | some u =>
      have hu : existing.contains u = false := construct_url_not_mem nm existing u hcu
      have ihr := ih (existing ++ [u])
      have hnotin : ∀ v ∈ (assignUrls (existing ++ [u]) rest).map Prod.snd,
          existing.contains v = false ∧ v ≠ u := by
        intro v hv
        have hvmem : v ∉ existing ++ [u] := by simpa using ihr.1 v hv
        constructor
        · simp only [List.mem_append] at hvmem
          push_neg at hvmem
          simpa using hvmem.1
        · intro he
          exact hvmem (by simp [he])
      constructor
      · intro v hv
        simp only [assignUrls, hcu, List.map_cons] at hv
        rcases List.mem_cons.mp hv with rfl | hv
        · exact hu
        · exact (hnotin v hv).1
      · simp only [assignUrls, hcu, List.map_cons]
        refine List.nodup_cons.mpr ⟨fun hmem => ?_, ihr.2⟩
        exact (hnotin u hmem).2 rfl

theorem assignUrls_mem_src : ∀ (ps : List (Nat × Str)) (existing : List Str)
    (pid : Nat) (u : Str), (pid, u) ∈ assignUrls existing ps →
      ∃ nm ex2, (pid, nm) ∈ ps ∧ construct_url nm ex2 = some u := by
  intro ps
  induction ps with
  | nil => intro existing pid u h; cases h
  | cons p rest ih =>
    intro existing pid u h
    obtain ⟨qa, qn⟩ := p
    cases hcu : construct_url qn existing with
    | none =>
      rw [assignUrls, hcu] at h
      obtain ⟨nm, ex2, hsrc, hc⟩ := ih existing pid u h
      exact ⟨nm, ex2, List.mem_cons_of_mem _ hsrc, hc⟩
    | some v =>
      rw [assignUrls, hcu] at h
      rcases List.mem_cons.mp h with heq | h
      · obtain ⟨rfl, rfl⟩ := Prod.mk.inj heq
        exact ⟨qn, existing, List.mem_cons_self _ _, hcu⟩
      · obtain ⟨nm, ex2, hsrc, hc⟩ := ih (existing ++ [v]) pid u h
        exact ⟨nm, ex2, List.mem_cons_of_mem _ hsrc, hc⟩

theorem construct_url_short (name : Str) (existing : List Str)
    (h : (splitWs name).length < 2) : construct_url name existing = none := by
  cases hs : splitWs name with
  | nil => unfold construct_url; rw [hs]
  | cons a tl =>
    cases tl with
    | nil => unfold construct_url; rw [hs]
    | cons b tl2 =>
      exfalso
      rw [hs] at h
      simp only [List.length_cons] at h
      omega

theorem pending_mem_elim (db : List PRow) (hnodup : (db.map (·.id)).Nodup)
    (r : PRow) (hr : r ∈ db) (nm : Str) (hsrc : (r.id, nm) ∈ pendingOf db) :
    r.url = none ∧ nm = r.name := by
  obtain ⟨rp, hrp, hf⟩ := List.mem_filterMap.mp hsrc
  cases hru : rp.url with
  | some v => rw [hru] at hf; cases hf
  | none =>
    rw [hru] at hf
    obtain ⟨hid, hnm⟩ := Prod.mk.inj (Option.some.inj hf)
    have hrr : rp = r := List.inj_on_of_nodup_map hnodup hrp hr hid
    rw [← hrr, hru, ← hnm]
    exact ⟨rfl, rfl⟩

/-- C6: for a player name with at least two whitespace-separated parts, the
allocator derives its candidates deterministically from the first and last
part via `candidateUrl` (bucket letter, five-character stem, two-letter
first-name piece, two-digit counter); a returned URL is the candidate with
the least counter `k ∈ [1, 99]` not amongst the already-assigned URLs, every
smaller counter colliding; and when all 99 counters collide the allocation
returns no URL. The stem uses the last name truncated to five characters, or,
when the last name is shorter, extended with leading characters of the first
name. -/
theorem claim_C6_url_allocator :
    (∀ (name : Str) (existing : List Str) (p0 p1 : Str) (rest : List Str),
       splitWs name = p0 :: p1 :: rest →
       ((∀ u, construct_url name existing = some u →
          ∃ k, 1 ≤ k ∧ k ≤ 99 ∧ u = candidateUrl p0 ((p1 :: rest).getLastD []) k ∧
               existing.contains u = false ∧
               ∀ j, 1 ≤ j → j < k →
                 existing.contains (candidateUrl p0 ((p1 :: rest).getLastD []) j) = true) ∧
        ((∀ k, 1 ≤ k → k ≤ 99 →
            existing.contains (candidateUrl p0 ((p1 :: rest).getLastD []) k) = true) →
          construct_url name existing = none))) ∧
    (∀ first last : Str,
       (5 ≤ last.length → slugStem first last = lowerS (last.take 5)) ∧
       (last.length < 5 →
         slugStem first last = lowerS (last ++ first.take (5 - last.length)))) := by
  constructor
  · intro name existing p0 p1 rest hsplit
    have hcu : construct_url name existing =
        urlSearchAux existing p0 ((p1 :: rest).getLastD []) 1 99 := by
      unfold construct_url
      rw [hsplit]
    rw [hcu]
    exact urlSearchAux_spec existing p0 ((p1 :: rest).getLastD []) 99 1
      (by omega) (by omega) (by omega)
  · intro first last
    constructor
    · intro h5
      unfold slugStem
      rw [if_pos h5]
    · intro h5
      unfold slugStem
      rw [if_neg (by omega)]

/-- Witness for C6: allocating for "Yao Ming" against an empty set of assigned
URLs returns the candidate for some counter in `[1, 99]`. -/
theorem claim_C6_witness :
    ∃ k, 1 ≤ k ∧ k ≤ 99 ∧
      construct_url (str "Yao Ming") [] = some (candidateUrl (str "Yao") (str "Ming") k) := by
  obtain ⟨k, hk1, hk2, he, -, -⟩ :=
    (claim_C6_url_allocator.1 (str "Yao Ming") [] (str "Yao") (str "Ming") []
      (by decide)).1 (candidateUrl (str "Yao") (str "Ming") 1) (by decide)
  refine ⟨k, hk1, hk2, ?_⟩
  rw [show construct_url (str "Yao Ming") [] = some (candidateUrl (str "Yao") (str "Ming") 1)
      by decide, he]
  exact rfl

/-- C7: over any player table with distinct row ids, the URLs assigned in one
`generate_player_urls` batch are pairwise distinct, each is absent from the
set of previously assigned URLs, and a row that already has a URL receives no
UPDATE — it survives the batch unchanged. -/
theorem claim_C7_url_batch_uniqueness :
    ∀ db : List PRow, (db.map (·.id)).Nodup →
      ((assignUrls (existingOf db) (pendingOf db)).map Prod.snd).Nodup ∧
      (∀ pu ∈ assignUrls (existingOf db) (pendingOf db),
         (existingOf db).contains pu.2 = false) ∧
      (∀ r ∈ db, r.url ≠ none →
         (assignUrls (existingOf db) (pendingOf db)).lookup r.id = none ∧
         r ∈ generate_player_urls db) := by
  intro db hnodup
  refine ⟨(assignUrls_fresh (pendingOf db) (existingOf db)).2, fun pu hpu => ?_,
          fun r hr hurl => ?_⟩
  · exact (assignUrls_fresh (pendingOf db) (existingOf db)).1 pu.2
      (List.mem_map_of_mem Prod.snd hpu)
  · have hlk : (assignUrls (existingOf db) (pendingOf db)).lookup r.id = none := by
      cases hlk : (assignUrls (existingOf db) (pendingOf db)).lookup r.id with
      | none => rfl
      | some u =>
        exfalso
        obtain ⟨nm, ex2, hsrc, -⟩ :=
          assignUrls_mem_src (pendingOf db) (existingOf db) r.id u (lookup_mem _ _ _ hlk)
        exact hurl (pending_mem_elim db hnodup r hr nm hsrc).1
    refine ⟨hlk, ?_⟩
    have hm := List.mem_map_of_mem (fun rr =>
        match (assignUrls (existingOf db) (pendingOf db)).lookup rr.id with
        | some u => { rr with url := some u }
        | none => rr) hr
    simpa only [hlk] using hm

/-- A concrete player table: two players lacking URLs (with colliding slugs)
and one player with a URL already assigned. -/
def wdb : List PRow :=
  [{ id := 1, name := str "John Smith", url := none },
   { id := 2, name := str "John Smith", url := none },
   { id := 3, name := str "Alec Burks",
     url := some (str "https://www.basketball-reference.com/players/b/burksal01.html") }]

/-- Witness for C7: the batch over `wdb` assigns pairwise distinct URLs. -/
theorem claim_C7_witness :
    ((assignUrls (existingOf wdb) (pendingOf wdb)).map Prod.snd).Nodup :=
  (claim_C7_url_batch_uniqueness wdb (by decide)).1

/-- C10: a player name with fewer than two whitespace-separated parts gets no
candidate URL; the batch loop issues no UPDATE for it and simply moves to the
remaining players, and the player's row survives `generate_player_urls` with
its url column still NULL. -/
theorem claim_C10_short_name_skipped :
    (∀ (name : Str) (existing : List Str), (splitWs name).length < 2 →
       construct_url name existing = none) ∧
    (∀ (existing : List Str) (pid : Nat) (nm : Str) (rest : List (Nat × Str)),
       construct_url nm existing = none →
       assignUrls existing ((pid, nm) :: rest) = assignUrls existing rest) ∧
    (∀ db : List PRow, (db.map (·.id)).Nodup →
       ∀ r ∈ db, r.url = none → (splitWs r.name).length < 2 →
         (assignUrls (existingOf db) (pendingOf db)).lookup r.id = none ∧
         r ∈ generate_player_urls db) := by
  refine ⟨construct_url_short, fun existing pid nm rest h => ?_, fun db hnodup r hr hurl hshort => ?_⟩
  · rw [assignUrls, h]
  · have hlk : (assignUrls (existingOf db) (pendingOf db)).lookup r.id = none := by
      cases hlk : (assignUrls (existingOf db) (pendingOf db)).lookup r.id with
      | none => rfl
      | some u =>
        exfalso
        obtain ⟨nm, ex2, hsrc, hcu⟩ :=
          assignUrls_mem_src (pendingOf db) (existingOf db) r.id u (lookup_mem _ _ _ hlk)
        have hnm := (pending_mem_elim db hnodup r hr nm hsrc).2
        rw [hnm, construct_url_short r.name ex2 hshort] at hcu
        cases hcu
    refine ⟨hlk, ?_⟩
    have hm := List.mem_map_of_mem (fun rr =>
        match (assignUrls (existingOf db) (pendingOf db)).lookup rr.id with
        | some u => { rr with url := some u }
        | none => rr) hr
    simpa only [hlk] using hm

/-- Witness for C10: "Nene" has a single name part, so allocation yields no
URL, and his row keeps a NULL url through the batch. -/
theorem claim_C10_witness :
    construct_url (str "Nene") [] = none ∧
    ({ id := 7, name := str "Nene", url := none } : PRow) ∈
      generate_player_urls [{ id := 7, name := str "Nene", url := none }] :=
  ⟨claim_C10_short_name_skipped.1 (str "Nene") [] (by decide),
   (claim_C10_short_name_skipped.2.2 [{ id := 7, name := str "Nene", url := none }]
     (by decide) _ (List.mem_cons_self _ _) rfl (by decide)).2⟩

theorem upsert_append_iff {α : Type} (keyEq : α → α → Bool) (db : List α) (c : α) :
    upsert keyEq db c = db ++ [c] ↔ ∀ r ∈ db, keyEq c r = false := by
  unfold upsert
  by_cases h : db.any (fun x => keyEq c x) = true
  · rw [if_pos h]
    constructor
    · intro he
      have := congrArg List.length he
      simp at this
    · intro hall
      obtain ⟨x, hx, hkx⟩ := List.any_eq_true.mp h
      rw [hall x hx] at hkx
      cases hkx
  · rw [if_neg h]
    refine ⟨fun _ r hr => ?_, fun _ => rfl⟩
    cases hk : keyEq c r
    · rfl
    · exact absurd (List.any_eq_true.mpr ⟨r, hr, hk⟩) h

/-- The roster candidate of the C8 counterexample. -/
def cexA : PlayerRow :=
  { name := some (str "John Smith"), team := str "BOS", position := some (str "SG"),
    height := some (str "6-5"), weight := 200,
    birth_date := some (str "June 1, 1998"), birth_country := some (str "us"),
    experience := some (str "2"), college := some (str "Duke") }

/-- Same name, height, college and experience as `cexA` but a different team
and position, so the nine-field key differs. -/
def cexB : PlayerRow := { cexA with team := str "ATL", position := some (str "PF") }

/-- C8, counterexample: `cexB` matches no existing row on all nine key fields,
yet the `data-base-creator` roster variant skips it (its duplicate check
compares only name, height, college and experience), while the
`scrape_bball_ref` variant inserts it. So the claim that every
roster-pipeline variant inserts a candidate if and only if no existing row
matches all nine fields is false. -/
theorem claim_C8_counterexample :
    key9Eq cexB cexA = false ∧
    roster_insert_dbc [cexA] cexB = [cexA] ∧
    roster_insert_full [cexA] cexB = [cexA, cexB] := by decide

/-- C8, amended: each roster variant de-duplicates on its own key — the
`scrape_bball_ref` variant on the nine-field key, the `data-base-creator`
variant on (name, height, college, experience) — inserting a candidate
exactly when no existing row matches that variant's key under SQL equality,
and skipping it (keeping the store unchanged) when one does. -/
theorem claim_C8_dedup_keys :
    (∀ (db : List PlayerRow) (c : PlayerRow),
       (roster_insert_full db c = db ++ [c] ↔ ∀ r ∈ db, key9Eq c r = false) ∧
       ((∃ r ∈ db, key9Eq c r = true) → roster_insert_full db c = db)) ∧
    (∀ (db : List PlayerRow) (c : PlayerRow),
       (roster_insert_dbc db c = db ++ [c] ↔ ∀ r ∈ db, key4Eq c r = false) ∧
       ((∃ r ∈ db, key4Eq c r = true) → roster_insert_dbc db c = db)) := by
  constructor
  · intro db c
    refine ⟨upsert_append_iff key9Eq db c, fun ⟨r, hr, hk⟩ => ?_⟩
    exact upsert_skip key9Eq db c (List.any_eq_true.mpr ⟨r, hr, hk⟩)
  · intro db c
    refine ⟨upsert_append_iff key4Eq db c, fun ⟨r, hr, hk⟩ => ?_⟩
    exact upsert_skip key4Eq db c (List.any_eq_true.mpr ⟨r, hr, hk⟩)

/-- Witness for C8: a candidate matching an existing row on its variant's key
is skipped by that variant. -/
theorem claim_C8_witness :
    (∃ r ∈ [cexA], key4Eq cexB r = true) ∧ roster_insert_dbc [cexA] cexB = [cexA] :=
  ⟨⟨cexA, List.mem_cons_self _ _, by decide⟩,
   (claim_C8_dedup_keys.2 [cexA] cexB).2 ⟨cexA, List.mem_cons_self _ _, by decide⟩⟩
